import Mathlib

/-!
Shallow embedding of the mt7927 bring-up driver (src/packaging/driver/mt7927.c
and src/packaging/driver/mt7927_v2.c): bounds-checked register window access,
the HIF_REMAP_L1 indirection, DMA descriptor rings and their submit paths,
MCU command sequencing, firmware chunking, and the patch / main-firmware load
flows, together with theorems settling the specification's claims against
these definitions.

Machine integers are modelled as `Nat` with explicit `% 2 ^ w` where the C
code's fixed width matters (u8 sequence counters, u32 section offsets).
Device registers and DMA memory are modelled as explicit state; each MCU
send's device-side outcome is drawn from an oracle `Nat → Int` indexed by the
number of sends issued so far, mirroring the `int` return codes of the C
helpers.
-/

namespace MT7927

/-! ## Constants from the C sources -/

/-- Sentinel returned by `mt7927_rr` for an out-of-bounds offset. -/
def SENTINEL : Nat := 0xdeadbeef

/-- `MT_HIF_REMAP_L1` register offset (mt7927.c line 225). -/
def MT_HIF_REMAP_L1 : Nat := 0x155024

/-- `MT_HIF_REMAP_L1_BASE` window base (mt7927.c line 228). -/
def MT_HIF_REMAP_L1_BASE : Nat := 0x130000

/-- `MT_HIF_REMAP_WINDOW_SIZE` 64KB window (mt7927.c line 234). -/
def MT_HIF_REMAP_WINDOW_SIZE : Nat := 0x10000

/-- `MT_DMA_CTL_LAST_SEC0` = BIT(16). -/
def MT_DMA_CTL_LAST_SEC0 : Nat := 0x10000

/-- `MT_DMA_CTL_BURST` = BIT(17). -/
def MT_DMA_CTL_BURST : Nat := 0x20000

/-- `MT_DMA_CTL_DMA_DONE` = BIT(31). -/
def MT_DMA_CTL_DMA_DONE : Nat := 0x80000000

/-- `MT7927_FW_CHUNK_SIZE` / `FW_CHUNK_SIZE` = 4096 in both sources. -/
def MT7927_FW_CHUNK_SIZE : Nat := 4096

/-- `MT_PATCH_ADDR` (mt7927_v2.c line 322). -/
def MT_PATCH_ADDR : Nat := 0x900000

/-- Kernel error code `-EBUSY`, returned by `mt7927_dma_tx_queue_fw` on a
full ring. -/
def EBUSY_NEG : Int := -16

/-- Kernel error code `-EINVAL`. -/
def EINVAL_NEG : Int := -22

/-- Kernel error code `-ETIMEDOUT`. -/
def ETIMEDOUT_NEG : Int := -110

/-! ## Register window (mt7927.c lines 489-512, mt7927_v2.c lines 456-467) -/

/-- The mapped BAR0 register space: a value for every 32-bit offset plus the
mapped length used for bounds checking (`dev->regs` / `dev->regs_len`). -/
structure RegWindow where
  regs : Nat → Nat
  regs_len : Nat

/-- `mt7927_rr`: bounds-checked register read; out-of-bounds offsets return
the 0xdeadbeef sentinel. -/
def mt7927_rr (dev : RegWindow) (offset : Nat) : Nat :=
  if offset ≥ dev.regs_len then SENTINEL else dev.regs offset

/-- `mt7927_wr`: bounds-checked register write; out-of-bounds offsets are
dropped. -/
def mt7927_wr (dev : RegWindow) (offset val : Nat) : RegWindow :=
  if offset ≥ dev.regs_len then dev
  else { dev with regs := fun o => if o = offset then val else dev.regs o }

/-- `mt7927_wr_remap` (mt7927.c lines 559-596): compute the 64KB-aligned base
and in-window offset of the target address, bail out if `MT_HIF_REMAP_L1`
itself is unmapped, otherwise program the selector register with the high
bits of the target, then bounds-check the window offset and, when in range,
write the value through the remap window. -/
def mt7927_wr_remap (dev : RegWindow) (addr val : Nat) : RegWindow :=
  let base := addr / MT_HIF_REMAP_WINDOW_SIZE * MT_HIF_REMAP_WINDOW_SIZE
  let offset := addr % MT_HIF_REMAP_WINDOW_SIZE
  if MT_HIF_REMAP_L1 ≥ dev.regs_len then dev
  else
    let dev1 : RegWindow :=
      { dev with regs := fun o =>
          if o = MT_HIF_REMAP_L1 then base >>> 16 % 65536 * 65536 else dev.regs o }
    if MT_HIF_REMAP_L1_BASE + offset ≥ dev1.regs_len then dev1
    else
      { dev1 with regs := fun o =>
          if o = MT_HIF_REMAP_L1_BASE + offset then val else dev1.regs o }

/-! ## Theorems: claims C5 and C10 -/

/-- C5: for every register offset at or beyond the mapped window length,
`mt7927_rr` returns the sentinel value and `mt7927_wr` leaves the register
window unchanged; neither access faults. -/
theorem C5_out_of_bounds_access (dev : RegWindow) (o v : Nat)
    (h : dev.regs_len ≤ o) :
    mt7927_rr dev o = SENTINEL ∧ mt7927_wr dev o v = dev := by
  constructor <;> simp [mt7927_rr, mt7927_wr, h]

/-- C5 witness: concrete window of length 4, access at offset 4. -/
theorem C5_out_of_bounds_access_witness :
    mt7927_rr ⟨fun _ => 7, 4⟩ 4 = SENTINEL ∧
      mt7927_wr ⟨fun _ => 7, 4⟩ 4 9 = ⟨fun _ => 7, 4⟩ :=
  C5_out_of_bounds_access ⟨fun _ => 7, 4⟩ 4 9 (by decide)

/-- Concrete window for the C10 counterexample: BAR0 mapped length 0x131000,
all registers initially 0. -/
def remapDemoWindow : RegWindow := ⟨fun _ => 0, 0x131000⟩

/-- C10 counterexample: for target address 0x7c022000 the remap window offset
0x132000 is outside the 0x131000-byte mapped window, so this is an
out-of-range remap access, yet the whole window — the base-selector register
`MT_HIF_REMAP_L1` included — is left unchanged: the selector still holds 0,
not the remap value 0x7c020000 the claim says has already been programmed. -/
theorem C10_counterexample :
    remapDemoWindow.regs_len ≤
        MT_HIF_REMAP_L1_BASE + 0x7c022000 % MT_HIF_REMAP_WINDOW_SIZE ∧
      mt7927_wr_remap remapDemoWindow 0x7c022000 5 = remapDemoWindow ∧
      (mt7927_wr_remap remapDemoWindow 0x7c022000 5).regs MT_HIF_REMAP_L1 ≠
        0x7c022000 / MT_HIF_REMAP_WINDOW_SIZE * MT_HIF_REMAP_WINDOW_SIZE
          >>> 16 % 65536 * 65536 := by
  refine ⟨by norm_num [remapDemoWindow, MT_HIF_REMAP_L1_BASE,
    MT_HIF_REMAP_WINDOW_SIZE], ?_, ?_⟩
  · show mt7927_wr_remap remapDemoWindow 0x7c022000 5 = remapDemoWindow
    unfold mt7927_wr_remap
    norm_num [remapDemoWindow, MT_HIF_REMAP_L1]
  · unfold mt7927_wr_remap
    norm_num [remapDemoWindow, MT_HIF_REMAP_L1, MT_HIF_REMAP_WINDOW_SIZE,
      Nat.shiftRight_eq_div_pow]

/-- C10 (amended): a remap write whose target maps to a window offset outside
the mapped register window leaves the window entirely unchanged — in
particular the base-selector register is NOT reprogrammed.  The remap window
(`MT_HIF_REMAP_L1_BASE + offset ≤ 0x13ffff`) lies wholly below the selector
register (0x155024), so a mapped length short enough to exclude the window
offset also excludes the selector, and the function returns at its first
guard; the selector-write-before-window-bounds-check ordering in the code is
unreachable. -/
theorem C10_remap_out_of_range_no_effect (dev : RegWindow) (addr val : Nat)
    (h : dev.regs_len ≤ MT_HIF_REMAP_L1_BASE + addr % MT_HIF_REMAP_WINDOW_SIZE) :
    mt7927_wr_remap dev addr val = dev := by
  have hlt : addr % MT_HIF_REMAP_WINDOW_SIZE < MT_HIF_REMAP_WINDOW_SIZE :=
    Nat.mod_lt _ (by norm_num [MT_HIF_REMAP_WINDOW_SIZE])
  have h1 : MT_HIF_REMAP_L1 ≥ dev.regs_len := by
    revert h hlt
    norm_num [MT_HIF_REMAP_L1, MT_HIF_REMAP_L1_BASE, MT_HIF_REMAP_WINDOW_SIZE]
    omega
  unfold mt7927_wr_remap
  simp [h1]

/-- C10 amended-theorem witness: window of length 0x131000, target address
0x7c025000 whose window offset 0x135000 is out of range; the call is the
identity. -/
theorem C10_remap_out_of_range_no_effect_witness :
    mt7927_wr_remap ⟨fun _ => 3, 0x131000⟩ 0x7c025000 9 = ⟨fun _ => 3, 0x131000⟩ :=
  C10_remap_out_of_range_no_effect ⟨fun _ => 3, 0x131000⟩ 0x7c025000 9
    (by norm_num [MT_HIF_REMAP_L1_BASE, MT_HIF_REMAP_WINDOW_SIZE])

/-! ## DMA descriptor rings (mt7927.c lines 253-258, 1558-1594, 1806-1866;
mt7927_v2.c lines 274-279, 484-497) -/

/-- The 16-byte hardware descriptor `struct mt76_desc`. -/
structure mt76_desc where
  buf0 : Nat
  ctrl : Nat
  buf1 : Nat
  info : Nat
deriving DecidableEq, Repr

/-- A zeroed descriptor, as produced by the `memset(.., 0, ..)` after
`dma_alloc_coherent`. -/
def zeroDesc : mt76_desc := ⟨0, 0, 0, 0⟩

/-- One TX ring: descriptor array (as a function from slot index), capacity,
software head (`tx_ring_head` / `ring->idx`) and the last doorbell (CIDX)
value written to the device. -/
@[ext] structure TxRing where
  desc : Nat → mt76_desc
  size : Nat
  head : Nat
  doorbell : Nat

/-- `mt7927_ring_alloc` (mt7927_v2.c lines 484-497) and the ring allocations
in `mt7927_dma_init` (mt7927.c lines 1282-1293): zeroed descriptor memory,
index 0. -/
def mt7927_ring_alloc (size : Nat) : TxRing :=
  { desc := fun _ => zeroDesc, size := size, head := 0, doorbell := 0 }

/-- The availability check of `mt7927_dma_tx_queue_fw` (mt7927.c line 1818):
a slot is busy when its control word has the DMA_DONE bit clear and is not
the all-zero fresh value. -/
def fwSlotBusy (ctrl : Nat) : Bool :=
  ctrl &&& MT_DMA_CTL_DMA_DONE == 0 && ctrl != 0

/-- `mt7927_dma_tx_queue_fw` (mt7927.c lines 1806-1866): check the slot at
the head for availability (returning `-EBUSY` when the device still owns
it), fill the descriptor with address, length, LAST_SEC0 and BURST, advance
the head modulo the ring size and write it to the doorbell. -/
def mt7927_dma_tx_queue_fw (r : TxRing) (dmaLo dmaHi dataLen : Nat) :
    Except Int TxRing :=
  let idx := r.head
  if fwSlotBusy (r.desc idx).ctrl then .error EBUSY_NEG
  else
    let d : mt76_desc :=
      ⟨dmaLo, dataLen % 65536 ||| MT_DMA_CTL_LAST_SEC0 ||| MT_DMA_CTL_BURST,
        dmaHi, 0⟩
    let newHead := (idx + 1) % r.size
    .ok { desc := fun i => if i = idx then d else r.desc i,
          size := r.size, head := newHead, doorbell := newHead }

/-- `mt7927_dma_tx_queue_mcu` (mt7927.c lines 1558-1594): fill the
descriptor at the head unconditionally — there is no availability check and
no error path — advance the head modulo the ring size and write the
doorbell. -/
def mt7927_dma_tx_queue_mcu (r : TxRing) (dmaLo dmaHi dataLen : Nat) : TxRing :=
  let idx := r.head
  let d : mt76_desc :=
    ⟨dmaLo, dataLen % 65536 ||| MT_DMA_CTL_LAST_SEC0, dmaHi, 0⟩
  let newHead := (idx + 1) % r.size
  { desc := fun i => if i = idx then d else r.desc i,
    size := r.size, head := newHead, doorbell := newHead }

/-- A zeroed control word passes the availability check. -/
theorem fwSlotBusy_zero : fwSlotBusy 0 = false := by decide

/-- Iterate `mt7927_dma_tx_queue_fw` k times with a fixed payload, stopping
at the first error (as `mt7927_mcu_send_firmware` would). -/
def fwFill (dmaLo dmaHi dataLen : Nat) : Nat → Except Int TxRing → Except Int TxRing
  | 0, r => r
  | k+1, r =>
    match fwFill dmaLo dmaHi dataLen k r with
    | .error e => .error e
    | .ok r1 => mt7927_dma_tx_queue_fw r1 dmaLo dmaHi dataLen

/-- The descriptor `mt7927_dma_tx_queue_fw` writes for a given payload. -/
def fwDesc (dmaLo dmaHi dataLen : Nat) : mt76_desc :=
  ⟨dmaLo, dataLen % 65536 ||| MT_DMA_CTL_LAST_SEC0 ||| MT_DMA_CTL_BURST, dmaHi, 0⟩

/-- The ring state after k successful firmware submissions into a fresh ring
of the given size. -/
def fwFilledRing (size k dmaLo dmaHi dataLen : Nat) : TxRing :=
  { desc := fun i => if i < k then fwDesc dmaLo dmaHi dataLen else zeroDesc,
    size := size, head := k % size, doorbell := k % size }

/-- The control word written by the firmware submit path has the DMA_DONE
bit clear. -/
theorem fwDesc_ctrl_done_clear (dmaLo dmaHi dataLen : Nat) :
    (fwDesc dmaLo dmaHi dataLen).ctrl &&& MT_DMA_CTL_DMA_DONE = 0 := by
  have h1 : (fwDesc dmaLo dmaHi dataLen).ctrl < 2 ^ 18 := by
    apply Nat.or_lt_two_pow _ (by norm_num [MT_DMA_CTL_BURST])
    apply Nat.or_lt_two_pow _ (by norm_num [MT_DMA_CTL_LAST_SEC0])
    exact lt_trans (Nat.mod_lt _ (by norm_num)) (by norm_num)
  have h2 : (fwDesc dmaLo dmaHi dataLen).ctrl < 2 ^ 31 :=
    lt_trans h1 (by norm_num)
  have h3 : MT_DMA_CTL_DMA_DONE = 2 ^ 31 := by norm_num [MT_DMA_CTL_DMA_DONE]
  rw [h3, Nat.and_two_pow, Nat.testBit_eq_false_of_lt h2]
  rfl

/-- The control word written by the firmware submit path is nonzero (it has
the LAST_SEC0 bit set). -/
theorem fwDesc_ctrl_ne_zero (dmaLo dmaHi dataLen : Nat) :
    (fwDesc dmaLo dmaHi dataLen).ctrl ≠ 0 := by
  intro h
  have := congrArg (Nat.testBit · 16) h
  simp only [fwDesc, Nat.testBit_or] at this
  rw [show Nat.testBit MT_DMA_CTL_LAST_SEC0 16 = true from by decide] at this
  simp at this

/-- A slot holding a firmware descriptor is reported busy by the submit
path's availability check. -/
theorem fwDesc_busy (dmaLo dmaHi dataLen : Nat) :
    fwSlotBusy (fwDesc dmaLo dmaHi dataLen).ctrl = true := by
  have h1 := fwDesc_ctrl_done_clear dmaLo dmaHi dataLen
  have h2 := fwDesc_ctrl_ne_zero dmaLo dmaHi dataLen
  simp [fwSlotBusy, h1, h2]

/-- Unfolding the firmware submit path when the head slot is free. -/
theorem queue_fw_ok (r : TxRing) (dmaLo dmaHi dataLen : Nat)
    (h : fwSlotBusy (r.desc r.head).ctrl = false) :
    mt7927_dma_tx_queue_fw r dmaLo dmaHi dataLen =
      .ok { desc := fun i => if i = r.head then fwDesc dmaLo dmaHi dataLen
              else r.desc i,
            size := r.size, head := (r.head + 1) % r.size,
            doorbell := (r.head + 1) % r.size } := by
  simp [mt7927_dma_tx_queue_fw, h, fwDesc]

/-- Unfolding the firmware submit path when the head slot is still owned by
the device. -/
theorem queue_fw_busy (r : TxRing) (dmaLo dmaHi dataLen : Nat)
    (h : fwSlotBusy (r.desc r.head).ctrl = true) :
    mt7927_dma_tx_queue_fw r dmaLo dmaHi dataLen = .error EBUSY_NEG := by
  simp [mt7927_dma_tx_queue_fw, h]

/-- Filling a fresh ring: the first k ≤ size submissions all succeed and
leave the expected filled ring. -/
theorem fwFill_ok (size dmaLo dmaHi dataLen : Nat) :
    ∀ k, k ≤ size →
      fwFill dmaLo dmaHi dataLen k (.ok (mt7927_ring_alloc size)) =
        .ok (fwFilledRing size k dmaLo dmaHi dataLen) := by
  intro k
  induction k with
  | zero =>
    intro _
    have : mt7927_ring_alloc size = fwFilledRing size 0 dmaLo dmaHi dataLen := by
      ext i <;> simp [mt7927_ring_alloc, fwFilledRing, zeroDesc]
    rw [fwFill, this]
  | succ k ih =>
    intro hk
    have hklt : k < size := lt_of_lt_of_le (Nat.lt_succ_self k) hk
    have hhead : (fwFilledRing size k dmaLo dmaHi dataLen).head = k :=
      Nat.mod_eq_of_lt hklt
    have hslot : fwSlotBusy ((fwFilledRing size k dmaLo dmaHi dataLen).desc
        ((fwFilledRing size k dmaLo dmaHi dataLen).head)).ctrl = false := by
      rw [hhead]
      have hd : (fwFilledRing size k dmaLo dmaHi dataLen).desc k = zeroDesc := by
        simp [fwFilledRing]
      rw [hd]
      exact fwSlotBusy_zero
    rw [fwFill, ih (le_of_lt hklt)]
    show mt7927_dma_tx_queue_fw (fwFilledRing size k dmaLo dmaHi dataLen)
      dmaLo dmaHi dataLen = _
    rw [queue_fw_ok (fwFilledRing size k dmaLo dmaHi dataLen) dmaLo dmaHi dataLen hslot]
    congr 1
    apply TxRing.ext
    · funext i
      simp only [fwFilledRing, Nat.mod_eq_of_lt hklt]
      by_cases h1 : i = k
      · simp [h1]
      · by_cases h2 : i < k
        · simp [h1, h2, show i < k + 1 from by omega]
        · simp [h1, h2, show ¬ i < k + 1 from by omega]
    · simp [fwFilledRing]
    · simp [fwFilledRing, hhead]
    · simp [fwFilledRing, hhead]

/-- C1 counterexample rings: a fresh capacity-2 MCU command ring submitted
to twice (filling it, the device consuming nothing) and then a third time. -/
def mcuDemoRing2 : TxRing :=
  mt7927_dma_tx_queue_mcu (mt7927_dma_tx_queue_mcu (mt7927_ring_alloc 2) 0 0 7) 0 0 8

/-- The same ring after a third submission without any intervening drain. -/
def mcuDemoRing3 : TxRing := mt7927_dma_tx_queue_mcu mcuDemoRing2 0 0 9

/-- C1 counterexample: on the MCU command ring (`mt7927_dma_tx_queue_mcu`),
after 2 submissions fill a capacity-2 ring and the stalled device has
consumed neither (slot 0's DMA_DONE bit is clear), a third submission
silently overwrites slot 0 — the control word changes from the length-7
descriptor to the length-9 descriptor and no RingFull error is reported
(the function has no error path at all). -/
theorem C1_counterexample :
    (mcuDemoRing2.desc 0).ctrl = 7 ||| MT_DMA_CTL_LAST_SEC0 ∧
      (mcuDemoRing2.desc 0).ctrl &&& MT_DMA_CTL_DMA_DONE = 0 ∧
      (mcuDemoRing3.desc 0).ctrl = 9 ||| MT_DMA_CTL_LAST_SEC0 ∧
      (mcuDemoRing3.desc 0).ctrl ≠ (mcuDemoRing2.desc 0).ctrl := by
  refine ⟨by decide, by decide, by decide, by decide⟩

/-- C1 (amended): on the firmware-download ring — whose submit path
`mt7927_dma_tx_queue_fw` is the only one with an availability check —
submitting `size` items into a fresh ring of capacity `size` succeeds and
fills every slot, and the (size+1)-th submission without an intervening
drain is rejected with `-EBUSY` (RingFull), slot 0 being left untouched
rather than overwritten.  (The MCU command ring's submit path checks
nothing; see the counterexample.) -/
theorem C1_fwdl_ring_full_reported (size dmaLo dmaHi dataLen : Nat)
    (hs : 0 < size) :
    fwFill dmaLo dmaHi dataLen size (.ok (mt7927_ring_alloc size)) =
        .ok (fwFilledRing size size dmaLo dmaHi dataLen) ∧
      mt7927_dma_tx_queue_fw (fwFilledRing size size dmaLo dmaHi dataLen)
          dmaLo dmaHi dataLen = .error EBUSY_NEG ∧
      (fwFilledRing size size dmaLo dmaHi dataLen).desc 0 =
        fwDesc dmaLo dmaHi dataLen := by
  refine ⟨fwFill_ok size dmaLo dmaHi dataLen size le_rfl, ?_, ?_⟩
  · apply queue_fw_busy
    have hhead : (fwFilledRing size size dmaLo dmaHi dataLen).head = 0 := by
      simp [fwFilledRing, Nat.mod_self]
    rw [hhead]
    have hslot : (fwFilledRing size size dmaLo dmaHi dataLen).desc 0 =
        fwDesc dmaLo dmaHi dataLen := by
      simp [fwFilledRing, hs]
    rw [hslot]
    exact fwDesc_busy dmaLo dmaHi dataLen
  · simp [fwFilledRing, hs]

/-- C1 witness: capacity 2, payload length 64. -/
theorem C1_fwdl_ring_full_reported_witness :
    fwFill 0 0 64 2 (.ok (mt7927_ring_alloc 2)) = .ok (fwFilledRing 2 2 0 0 64) ∧
      mt7927_dma_tx_queue_fw (fwFilledRing 2 2 0 0 64) 0 0 64 =
        .error EBUSY_NEG ∧
      (fwFilledRing 2 2 0 0 64).desc 0 = fwDesc 0 0 64 :=
  C1_fwdl_ring_full_reported 2 0 0 64 (by decide)

/-- C9: every descriptor of a freshly allocated ring is accepted as
available by the firmware submit path's check, and the first submission
into a fresh ring never reports a full ring. -/
theorem C9_fresh_ring_descriptors_available (size dmaLo dmaHi dataLen : Nat) :
    (∀ i, fwSlotBusy ((mt7927_ring_alloc size).desc i).ctrl = false) ∧
      ∃ r1, mt7927_dma_tx_queue_fw (mt7927_ring_alloc size) dmaLo dmaHi dataLen
        = .ok r1 := by
  refine ⟨fun i => fwSlotBusy_zero, ?_⟩
  exact ⟨_, queue_fw_ok (mt7927_ring_alloc size) dmaLo dmaHi dataLen fwSlotBusy_zero⟩

/-! ## MCU sequence numbers (mt7927.c lines 1537-1543; mt7927_v2.c lines
1231 and 1648) -/

/-- `mt7927_mcu_next_seq`: `dev->mcu_seq = (dev->mcu_seq + 1) & 0xf;` then
0 is skipped to 1.  Returns the updated counter, which is also the assigned
sequence number. -/
def mt7927_mcu_next_seq (seq : Nat) : Nat :=
  let s := (seq + 1) &&& 0xf
  if s = 0 then 1 else s

/-- Sequence numbers assigned by n consecutive mt7927.c MCU commands
starting from counter state `seq`. -/
def mcuSeqList (seq : Nat) : Nat → List Nat
  | 0 => []
  | n+1 => mt7927_mcu_next_seq seq :: mcuSeqList (mt7927_mcu_next_seq seq) n

/-- Sequence numbers assigned by n consecutive mt7927_v2.c sends
(`txd->seq = dev->mcu_seq++` on a u8 field, mt7927_v2.c lines 1231 and
1648): the current value is assigned, then the counter increments modulo
256.  The initial channel state is `dev->mcu_seq = 1`, set in
`mt7927_probe` (mt7927_v2.c line 1969). -/
def v2SeqList (seq : Nat) : Nat → List Nat
  | 0 => []
  | n+1 => seq % 256 :: v2SeqList ((seq % 256 + 1) % 256) n

/-- C2 counterexample: mt7927_v2.c's MCU send path assigns sequence numbers
by plain 8-bit post-increment from the probe-time initial counter value 1,
so 20 consecutive commands from the initial channel state get 1,2,...,20
rather than the claimed 1..15,1..5 cycle: there is no wrap after 15, and
the 16th command gets sequence number 16, outside the claimed 1..15
range. -/
theorem C2_counterexample :
    v2SeqList 1 20 =
        [1, 2, 3, 4, 5, 6, 7, 8, 9, 10, 11, 12, 13, 14, 15, 16, 17, 18, 19,
          20] ∧
      (v2SeqList 1 20).getD 15 0 = 16 ∧ ¬ (16 ≤ 15) ∧
      v2SeqList 1 20 ≠ mcuSeqList 0 20 := by
  refine ⟨by decide, by decide, by decide, by decide⟩

/-- C2 (amended): mt7927.c's `mt7927_mcu_next_seq`, from that file's
initial counter state 0 (`dev->mcu_seq = 0`, mt7927.c line 2177), assigns
the sequence numbers 1,2,...,15,1,2,...,5 to 20 consecutive commands —
range 1..15, skipping 0, wrapping after 15.  (mt7927_v2.c instead assigns
by a plain u8 post-increment from its probe-time initial value 1, giving
1,2,...,20 with no wrap at 15; see the counterexample.) -/
theorem C2_seq_cycle :
    mcuSeqList 0 20 =
      [1, 2, 3, 4, 5, 6, 7, 8, 9, 10, 11, 12, 13, 14, 15, 1, 2, 3, 4, 5] := by
  decide

/-! ## Firmware chunking (mt7927.c lines 1971-2004; mt7927_v2.c lines
1789-1801) -/

/-- The chunk-size loop of `mt7927_mcu_send_firmware` / the v2 transfer
loops: `cur_len = min(len, MT7927_FW_CHUNK_SIZE)`, repeated until the
payload is exhausted.  The first argument is recursion fuel; since every
iteration consumes at least one byte, `len` itself is enough fuel and
`fwChunks` below supplies it. -/
def fwChunksAux : Nat → Nat → List Nat
  | _, 0 => []
  | 0, _+1 => []
  | fuel+1, len+1 =>
    min (len + 1) MT7927_FW_CHUNK_SIZE ::
      fwChunksAux fuel (len + 1 - min (len + 1) MT7927_FW_CHUNK_SIZE)

/-- The list of chunk sizes the firmware send loop produces for a payload of
`len` bytes. -/
def fwChunks (len : Nat) : List Nat := fwChunksAux len len

/-- An exhausted payload yields no chunks, whatever the fuel. -/
theorem fwChunksAux_nil (fuel : Nat) : fwChunksAux fuel 0 = [] := by
  cases fuel <;> rfl

/-- Chunk sizes sum to the payload length. -/
theorem fwChunksAux_sum (fuel : Nat) :
    ∀ len, len ≤ fuel → (fwChunksAux fuel len).sum = len := by
  induction fuel with
  | zero =>
    intro len hlen
    interval_cases len
    rfl
  | succ fuel ih =>
    intro len hlen
    match len with
    | 0 => rfl
    | l+1 =>
      rw [fwChunksAux, List.sum_cons,
        ih (l + 1 - min (l + 1) MT7927_FW_CHUNK_SIZE) (by
          have : 1 ≤ min (l + 1) MT7927_FW_CHUNK_SIZE := by
            simp [MT7927_FW_CHUNK_SIZE]
          omega)]
      have : min (l + 1) MT7927_FW_CHUNK_SIZE ≤ l + 1 := Nat.min_le_left _ _
      omega

/-- The number of chunks is the payload length divided by 4096, rounded
up. -/
theorem fwChunksAux_length (fuel : Nat) :
    ∀ len, len ≤ fuel →
      (fwChunksAux fuel len).length = (len + 4095) / 4096 := by
  induction fuel with
  | zero =>
    intro len hlen
    interval_cases len
    rfl
  | succ fuel ih =>
    intro len hlen
    match len with
    | 0 => rfl
    | l+1 =>
      rw [fwChunksAux, List.length_cons,
        ih (l + 1 - min (l + 1) MT7927_FW_CHUNK_SIZE) (by
          have : 1 ≤ min (l + 1) MT7927_FW_CHUNK_SIZE := by
            simp [MT7927_FW_CHUNK_SIZE]
          omega)]
      simp only [MT7927_FW_CHUNK_SIZE]
      omega

/-- Every chunk is at most 4096 bytes. -/
theorem fwChunksAux_le (fuel : Nat) :
    ∀ len c, c ∈ fwChunksAux fuel len → c ≤ MT7927_FW_CHUNK_SIZE := by
  induction fuel with
  | zero =>
    intro len c hc
    match len with
    | 0 => cases hc
    | _+1 => cases hc
  | succ fuel ih =>
    intro len c hc
    match len with
    | 0 => cases hc
    | l+1 =>
      rw [fwChunksAux] at hc
      rcases List.mem_cons.mp hc with h | h
      · rw [h]; exact Nat.min_le_right _ _
      · exact ih _ _ h

/-- Every chunk before the last is exactly 4096 bytes. -/
theorem fwChunksAux_dropLast (fuel : Nat) :
    ∀ len c, c ∈ (fwChunksAux fuel len).dropLast →
      c = MT7927_FW_CHUNK_SIZE := by
  induction fuel with
  | zero =>
    intro len c hc
    match len with
    | 0 => cases hc
    | _+1 => cases hc
  | succ fuel ih =>
    intro len c hc
    match len with
    | 0 => cases hc
    | l+1 =>
      rw [fwChunksAux] at hc
      by_cases hrest : fwChunksAux fuel (l + 1 - min (l + 1) MT7927_FW_CHUNK_SIZE) = []
      · rw [hrest] at hc
        cases hc
      · rw [List.dropLast_cons_of_ne_nil hrest] at hc
        rcases List.mem_cons.mp hc with h | h
        · -- the rest is nonempty, so at least 4097 bytes remained: the
          -- current chunk is a full 4096
          have hpos : 0 < l + 1 - min (l + 1) MT7927_FW_CHUNK_SIZE := by
            by_contra hz
            have : l + 1 - min (l + 1) MT7927_FW_CHUNK_SIZE = 0 := by omega
            rw [this] at hrest
            exact hrest (fwChunksAux_nil fuel)
          have : MT7927_FW_CHUNK_SIZE < l + 1 := by
            have := Nat.min_le_left (l + 1) MT7927_FW_CHUNK_SIZE
            by_contra hle
            have hmin : min (l + 1) MT7927_FW_CHUNK_SIZE = l + 1 := by omega
            omega
          rw [h]
          have : min (l + 1) MT7927_FW_CHUNK_SIZE = MT7927_FW_CHUNK_SIZE := by
            omega
          exact this
        · exact ih _ _ h

/-- C7: the firmware send loop splits an L-byte payload into
ceil(L / 4096) chunks whose sizes sum to L, each chunk at most 4096 bytes
and every chunk before the last exactly 4096 bytes; in particular a
10000-byte (10 KB) patch payload becomes the three chunks 4096, 4096,
1808. -/
theorem C7_firmware_chunking (L : Nat) :
    (fwChunks L).sum = L ∧
      (fwChunks L).length = (L + 4095) / 4096 ∧
      (∀ c ∈ fwChunks L, c ≤ 4096) ∧
      (∀ c ∈ (fwChunks L).dropLast, c = 4096) ∧
      fwChunks 10000 = [4096, 4096, 1808] := by
  refine ⟨fwChunksAux_sum L L le_rfl, fwChunksAux_length L L le_rfl, ?_, ?_, by decide⟩
  · intro c hc
    simpa [MT7927_FW_CHUNK_SIZE] using fwChunksAux_le L L c hc
  · intro c hc
    simpa [MT7927_FW_CHUNK_SIZE] using fwChunksAux_dropLast L L c hc

/-- C7 witness: the membership-style conjuncts instantiated at L = 5000,
first chunk. -/
theorem C7_firmware_chunking_witness :
    (fwChunks 5000).sum = 5000 ∧
      (fwChunks 5000).length = (5000 + 4095) / 4096 ∧
      4096 ∈ fwChunks 5000 ∧ (4096 : Nat) ≤ 4096 ∧
      4096 ∈ (fwChunks 5000).dropLast ∧ (4096 : Nat) = 4096 :=
  ⟨(C7_firmware_chunking 5000).1, (C7_firmware_chunking 5000).2.1,
    by decide, (C7_firmware_chunking 5000).2.2.1 4096 (by decide),
    by decide, (C7_firmware_chunking 5000).2.2.2.1 4096 (by decide)⟩

/-! ## Drain polling (mt7927.c lines 1871-1908 and 1599-1617; mt7927_v2.c
lines 1181-1200) -/

/-- The poll loop of `mt7927_dma_tx_wait` / `mt7927_mcu_tx_wait`: on each
iteration read the ring's CPU index and DMA index; return 0 as soon as they
agree, `-ETIMEDOUT` after `fuel` polls.  `i` counts polls already
performed; the second component of the result is the total number of polls
performed. -/
def mt7927_dma_tx_wait_aux (cidx didx : Nat → Nat) : Nat → Nat → Int × Nat
  | i, 0 => (ETIMEDOUT_NEG, i)
  | i, fuel+1 =>
    if cidx i = didx i then (0, i + 1)
    else mt7927_dma_tx_wait_aux cidx didx (i + 1) fuel

/-- `mt7927_dma_tx_wait` (mt7927.c lines 1871-1908): poll once per
millisecond for `timeout_ms` iterations. -/
def mt7927_dma_tx_wait (cidx didx : Nat → Nat) (timeout_ms : Nat) : Int × Nat :=
  mt7927_dma_tx_wait_aux cidx didx 0 timeout_ms

/-- The poll loop of v2's `mt7927_wait_tx_done`: CIDX is read once before
the loop; DIDX is re-read on each of the `timeout_ms * 10` iterations. -/
def mt7927_wait_tx_done_aux (cidx : Nat) (didx : Nat → Nat) : Nat → Nat → Int × Nat
  | i, 0 => (ETIMEDOUT_NEG, i)
  | i, fuel+1 =>
    if didx i = cidx then (0, i + 1)
    else mt7927_wait_tx_done_aux cidx didx (i + 1) fuel

/-- `mt7927_wait_tx_done` (mt7927_v2.c lines 1181-1200): poll every
~100 microseconds, `DMA_TX_DONE_TIMEOUT_MS * 10` times. -/
def mt7927_wait_tx_done (cidx : Nat) (didx : Nat → Nat) (timeout_ms : Nat) :
    Int × Nat :=
  mt7927_wait_tx_done_aux cidx didx 0 (timeout_ms * 10)

/-- A never-satisfied poll runs its full budget. -/
theorem mt7927_dma_tx_wait_aux_stalled (cidx didx : Nat → Nat)
    (h : ∀ i, cidx i ≠ didx i) :
    ∀ fuel i, mt7927_dma_tx_wait_aux cidx didx i fuel = (ETIMEDOUT_NEG, i + fuel) := by
  intro fuel
  induction fuel with
  | zero => intro i; rfl
  | succ fuel ih =>
    intro i
    rw [mt7927_dma_tx_wait_aux, if_neg (h i), ih (i + 1)]
    congr 1
    omega

/-- A never-satisfied v2 poll runs its full budget. -/
theorem mt7927_wait_tx_done_aux_stalled (cidx : Nat) (didx : Nat → Nat)
    (h : ∀ i, didx i ≠ cidx) :
    ∀ fuel i, mt7927_wait_tx_done_aux cidx didx i fuel = (ETIMEDOUT_NEG, i + fuel) := by
  intro fuel
  induction fuel with
  | zero => intro i; rfl
  | succ fuel ih =>
    intro i
    rw [mt7927_wait_tx_done_aux, if_neg (h i), ih (i + 1)]
    congr 1
    omega

/-- C8: with a stalled device — the consumer (DMA) index never equal to the
producer (CPU) index — `mt7927_dma_tx_wait` returns `-ETIMEDOUT` after
performing exactly `timeout_ms` poll iterations (one per configured
millisecond), not fewer; and v2's `mt7927_wait_tx_done` likewise returns
`-ETIMEDOUT` after exactly its configured `timeout_ms * 10` polls. -/
theorem C8_wait_drain_timeout (cidx didx : Nat → Nat) (c t : Nat)
    (didx2 : Nat → Nat) (h1 : ∀ i, cidx i ≠ didx i) (h2 : ∀ i, didx2 i ≠ c) :
    mt7927_dma_tx_wait cidx didx t = (ETIMEDOUT_NEG, t) ∧
      mt7927_wait_tx_done c didx2 t = (ETIMEDOUT_NEG, t * 10) := by
  constructor
  · rw [mt7927_dma_tx_wait, mt7927_dma_tx_wait_aux_stalled cidx didx h1 t 0]
    simp
  · rw [mt7927_wait_tx_done, mt7927_wait_tx_done_aux_stalled c didx2 h2 (t * 10) 0]
    simp

/-- C8 witness: CPU index stuck at 1, DMA index stuck at 0, 3 ms budget. -/
theorem C8_wait_drain_timeout_witness :
    mt7927_dma_tx_wait (fun _ => 1) (fun _ => 0) 3 = (ETIMEDOUT_NEG, 3) ∧
      mt7927_wait_tx_done 1 (fun _ => 0) 3 = (ETIMEDOUT_NEG, 3 * 10) :=
  C8_wait_drain_timeout (fun _ => 1) (fun _ => 0) 1 3 (fun _ => 0)
    (fun _ => one_ne_zero) (fun _ => zero_ne_one)

/-! ## MCU command traces (mt7927.c lines 1677-1798 and 2009-2150;
mt7927_v2.c lines 1205-1333 and 1730-1821)

Each MCU-level send (a command on ring 15 or a firmware-scatter on ring 16)
is recorded as one event; the device's response to the n-th send of a run is
the oracle's value at n, mirroring the `int` results of the C send
helpers. -/

/-- One MCU-level send, by command id and payload. -/
inductive FwEvent where
  | semAcquire : FwEvent
  | semRelease : FwEvent
  | patchStart (addr len : Nat) : FwEvent
  | initDownload (addr len : Nat) : FwEvent
  | scatter (len : Nat) : FwEvent
  | patchFinish : FwEvent
  | fwStart (addr : Nat) : FwEvent
deriving DecidableEq, Repr

/-- The send-side state threaded through a load: the device-outcome oracle,
the number of sends issued so far, and the trace of sends. -/
structure McuIO where
  oracle : Nat → Int
  count : Nat
  trace : List FwEvent

/-- Issue one MCU send: record the event and return the device's outcome for
this send. -/
def mcuSend (io : McuIO) (e : FwEvent) : Int × McuIO :=
  (io.oracle io.count,
    { io with count := io.count + 1, trace := io.trace ++ [e] })

/-- An all-succeeding device starting from a fresh run. -/
def ioZero : McuIO := ⟨fun _ => 0, 0, []⟩

/-- The chunk-send loop shared by `mt7927_mcu_send_firmware` (mt7927.c lines
1971-2004) and the v2 transfer loops: send each chunk in order, aborting on
the first failure. -/
def mcu_send_firmware : McuIO → List Nat → Int × McuIO
  | io, [] => (0, io)
  | io, c :: cs =>
    let (r, io1) := mcuSend io (.scatter c)
    if r ≠ 0 then (r, io1) else mcu_send_firmware io1 cs

/-- The `sem_release` tail of v2's `mt7927_load_patch` (mt7927_v2.c lines
1814-1816): the release command is sent, its own result discarded, and the
already-established return value is kept. -/
def v2_sem_release_return (ret : Int) (io : McuIO) : Int × McuIO :=
  (ret, (mcuSend io .semRelease).2)

/-- `mt7927_load_patch` (mt7927_v2.c lines 1730-1821), entered after the
firmware file and header checks passed, with `dataLen` bytes of patch
payload after the header: acquire the semaphore (failure aborts without
release), send PATCH_START_REQ, transfer the payload in chunks, send
PATCH_FINISH_REQ, and release the semaphore on every path after a
successful acquire. -/
def mt7927_v2_load_patch (dataLen : Nat) (io : McuIO) : Int × McuIO :=
  let (r1, io1) := mcuSend io .semAcquire
  if r1 ≠ 0 then (r1, io1)
  else
    let (r2, io2) := mcuSend io1 (.patchStart MT_PATCH_ADDR dataLen)
    if r2 ≠ 0 then v2_sem_release_return r2 io2
    else
      let (r3, io3) := mcu_send_firmware io2 (fwChunks dataLen)
      if r3 ≠ 0 then v2_sem_release_return r3 io3
      else
        let (r4, io4) := mcuSend io3 .patchFinish
        v2_sem_release_return r4 io4

/-- One patch section record as read (big-endian) from the file:
`sec->offs`, `sec->size`, `sec->info.addr`. -/
structure PatchSec where
  offs : Nat
  size : Nat
  addr : Nat
deriving DecidableEq, Repr

/-- The per-section loop of mt7927.c's `mt7927_load_patch` (lines
2089-2139): bounds-check `sec_offs + sec_size` (a wrapping u32 sum) against
the file size, returning `-EINVAL` on failure; send
TARGET_ADDRESS_LEN_REQ (its failure is only warned about), then the
section's chunks, aborting the load on a chunk failure. -/
def v1_send_sections (fwSize : Nat) : McuIO → List PatchSec → Int × McuIO
  | io, [] => (0, io)
  | io, s :: rest =>
    if (s.offs + s.size) % 2 ^ 32 > fwSize then (EINVAL_NEG, io)
    else
      let io1 := (mcuSend io (.initDownload s.addr s.size)).2
      let (r2, io2) := mcu_send_firmware io1 (fwChunks s.size)
      if r2 ≠ 0 then (r2, io2)
      else v1_send_sections fwSize io2 rest

/-- `mt7927_load_patch` (mt7927.c lines 2009-2150), entered after the file,
header and section-count checks passed: acquire the patch semaphore (a
failure is only warned about), process the sections, and release the
semaphore on every exit path of the section loop.  Note there is no
PATCH_FINISH step in this version. -/
def mt7927_load_patch_v1 (fwSize : Nat) (secs : List PatchSec) (io : McuIO) :
    Int × McuIO :=
  let io1 := (mcuSend io .semAcquire).2
  let (r, io2) := v1_send_sections fwSize io1 secs
  (r, (mcuSend io2 .semRelease).2)

/-! ## Main-image region parsing (mt7927_v2.c lines 339-361 and 1826-1926) -/

/-- Read one byte of the firmware blob (out-of-range reads see 0, standing
for the unmapped bytes the C pointer cast would reach). -/
def readByte (blob : List Nat) (off : Nat) : Nat := blob.getD off 0

/-- Read a little-endian 32-bit field, as the `__le32` member casts do. -/
def readLE32 (blob : List Nat) (off : Nat) : Nat :=
  readByte blob off + 256 * readByte blob (off + 1) +
    65536 * readByte blob (off + 2) + 16777216 * readByte blob (off + 3)

/-- `sizeof(struct mt76_connac2_fw_trailer)` = 36 bytes. -/
def FW_TRAILER_SIZE : Nat := 36

/-- `sizeof(struct mt76_connac2_fw_region)` = 40 bytes. -/
def FW_REGION_SIZE : Nat := 40

/-- The trailer's `n_region` byte: offset 2 within the trailer at the end of
the blob. -/
def fwNRegion (blob : List Nat) : Nat :=
  readByte blob (blob.length - FW_TRAILER_SIZE + 2)

/-- Region record i, read backwards from just before the trailer
(mt7927_v2.c lines 1870-1872); `addr` is at record offset 16 and `len` at
offset 20. -/
def fwRegionRecord (blob : List Nat) (i : Nat) : Nat × Nat :=
  (readLE32 blob
     (blob.length - FW_TRAILER_SIZE - (fwNRegion blob - i) * FW_REGION_SIZE + 16),
   readLE32 blob
     (blob.length - FW_TRAILER_SIZE - (fwNRegion blob - i) * FW_REGION_SIZE + 20))

/-- The (address, length) pairs of all declared regions, in loop order
i = 0, 1, ..., n_region - 1. -/
def fwParseRegions (blob : List Nat) : List (Nat × Nat) :=
  (List.range (fwNRegion blob)).map (fwRegionRecord blob)

/-- The region loop of `mt7927_load_ram` (mt7927_v2.c lines 1868-1906): for
each region send TARGET_ADDRESS_LEN_REQ (failure aborts) then the region's
data in chunks (failure aborts).  Note: no bounds check of the declared
region length against the blob is performed. -/
def v2_load_ram_loop : McuIO → List (Nat × Nat) → Int × McuIO
  | io, [] => (0, io)
  | io, (addr, len) :: rest =>
    let (r1, io1) := mcuSend io (.initDownload addr len)
    if r1 ≠ 0 then (r1, io1)
    else
      let (r2, io2) := mcu_send_firmware io1 (fwChunks len)
      if r2 ≠ 0 then (r2, io2)
      else v2_load_ram_loop io2 rest

/-- `FW_READY_TIMEOUT_MS` (mt7927_v2.c line 414). -/
def FW_READY_TIMEOUT_MS : Nat := 3000

/-- `MT_TOP_MISC2_FW_N9_RDY` = GENMASK(1, 0) (mt7927_v2.c line 325). -/
def MT_TOP_MISC2_FW_N9_RDY : Nat := 3

/-- The poll loop of `mt7927_wait_fw_ready` (mt7927_v2.c lines 1677-1725):
on iteration i it reads the ConnInfra MISC register (`misc i`) and returns
0 if the FW_N9_RDY bits are set, then reads the WFSYS+0x10 register
(`wfsys i`) and returns 0 if its low two bits are set; after `fuel`
iterations it returns `-ETIMEDOUT`.  (The loop's further reads — the RST
status, MCU_CMD and the ring-15 DIDX — only feed log lines.) -/
def mt7927_wait_fw_ready_aux (misc wfsys : Nat → Nat) : Nat → Nat → Int
  | _, 0 => ETIMEDOUT_NEG
  | i, fuel+1 =>
    if misc i &&& MT_TOP_MISC2_FW_N9_RDY = MT_TOP_MISC2_FW_N9_RDY then 0
    else if wfsys i &&& 3 = 3 then 0
    else mt7927_wait_fw_ready_aux misc wfsys (i + 1) fuel

/-- `mt7927_wait_fw_ready`: poll once per millisecond for
`FW_READY_TIMEOUT_MS` iterations. -/
def mt7927_wait_fw_ready (misc wfsys : Nat → Nat) : Int :=
  mt7927_wait_fw_ready_aux misc wfsys 0 FW_READY_TIMEOUT_MS

/-- `mt7927_mcu_start_firmware` (mt7927_v2.c lines 1544-1620): after the
ConnInfra wakeup pulse and interrupt-state dumps (register accesses only,
no MCU sends), send FW_START_REQ via ring 15 and re-read the ring-15 CIDX
register; `cidx_before` and `cidx_after` are those two reads.  When the
readback shows no advance (`cidx_after == cidx_before`, a hardware-side
observation independent of the send's own result), `ret` is overwritten by
`mt7927_fw_start_via_ring16` (mt7927_v2.c lines 1338-1391) — a second
FW_START_REQ send, through the firmware-download ring — and methods 3-6
(register pokes whose results are discarded) are tried. -/
def mt7927_mcu_start_firmware (addr cidx_before cidx_after : Nat)
    (io : McuIO) : Int × McuIO :=
  let (r1, io1) := mcuSend io (.fwStart addr)
  if cidx_after = cidx_before then
    let (r2, io2) := mcuSend io1 (.fwStart addr)
    (r2, io2)
  else (r1, io1)

/-- `mt7927_load_ram` (mt7927_v2.c lines 1826-1926), entered after the
firmware file was obtained: parse the trailer's region records, transfer
every region, call `mt7927_mcu_start_firmware` (aborting on its failure)
and return the result of `mt7927_wait_fw_ready`. -/
def mt7927_load_ram (blob : List Nat) (cidx_before cidx_after : Nat)
    (misc wfsys : Nat → Nat) (io : McuIO) : Int × McuIO :=
  let (r, io1) := v2_load_ram_loop io (fwParseRegions blob)
  if r ≠ 0 then (r, io1)
  else
    let (r2, io2) := mt7927_mcu_start_firmware 0 cidx_before cidx_after io1
    if r2 ≠ 0 then (r2, io2)
    else (mt7927_wait_fw_ready misc wfsys, io2)

/-- Serialize a 32-bit value little-endian (layout of the `__le32` struct
members). -/
def encodeLE32 (v : Nat) : List Nat :=
  [v % 256, v / 256 % 256, v / 65536 % 256, v / 16777216 % 256]

/-- Serialize one region record per `struct mt76_connac2_fw_region`:
decomp_crc, decomp_len, decomp_blk_sz and rsv (16 bytes, zeroed here), then
`addr` and `len`, then feature_set, type and rsv1 (16 bytes, zeroed). -/
def encodeRegionRecord (r : Nat × Nat) : List Nat :=
  List.replicate 16 0 ++ encodeLE32 r.1 ++ encodeLE32 r.2 ++ List.replicate 16 0

/-- Serialize the trailer per `struct mt76_connac2_fw_trailer`: chip_id,
eco_code (zeroed here), `n_region` at offset 2, then format_ver,
format_flag, rsv, fw_ver, build_date and crc (33 bytes, zeroed). -/
def encodeTrailer (nRegion : Nat) : List Nat :=
  0 :: 0 :: nRegion :: List.replicate 33 0

/-- A main firmware image: region payloads, then the region records, then
the trailer. -/
def mkMainImage (payload : List Nat) (rs : List (Nat × Nat)) : List Nat :=
  payload ++ (rs.map encodeRegionRecord).flatten ++ encodeTrailer rs.length

/-! ## Theorems: claim C3 -/

/-- C3 counterexample: the 76-byte blob built from a single region record
declaring length 8192 — far beyond the blob — is accepted by
`mt7927_load_ram` without any ParseError: the loader declares the region,
transfers two 4096-byte chunks of out-of-range bytes and starts the
firmware, returning success (device behavior: every send accepted, the
ring-15 CIDX readback advances 0 to 1, firmware-ready observed at the first
poll). -/
theorem C3_counterexample :
    (mkMainImage [] [(256, 8192)]).length = 76 ∧
      fwParseRegions (mkMainImage [] [(256, 8192)]) = [(256, 8192)] ∧
      (mt7927_load_ram (mkMainImage [] [(256, 8192)]) 0 1 (fun _ => 3)
          (fun _ => 0) ioZero).1 = 0 ∧
      ((mt7927_load_ram (mkMainImage [] [(256, 8192)]) 0 1 (fun _ => 3)
          (fun _ => 0) ioZero).2).trace =
        [.initDownload 256 8192, .scatter 4096, .scatter 4096, .fwStart 0] := by
  refine ⟨by decide, by decide, by decide, by decide⟩

/-- C3 (amended): only mt7927.c's patch loader bounds-checks declared
lengths: a section whose `offs + size` — computed, as the code does, as a
wrapping 32-bit sum — exceeds the file size makes the load fail with
`-EINVAL` before any Declare or Chunk command for that section is sent
(only the semaphore acquire/release pair is on the wire).  v2's
`mt7927_load_ram` has no such check at all (see the counterexample), and
the v1 check itself can be defeated by a 32-bit overflow of
`offs + size`. -/
theorem C3_v1_patch_bounds_checked (fwSize : Nat) (s : PatchSec)
    (rest : List PatchSec) (io : McuIO)
    (h : (s.offs + s.size) % 2 ^ 32 > fwSize) :
    mt7927_load_patch_v1 fwSize (s :: rest) io =
      (EINVAL_NEG, { io with
                       count := io.count + 2,
                       trace := io.trace ++ [.semAcquire, .semRelease] }) := by
  have hoob : ∀ io3 : McuIO,
      v1_send_sections fwSize io3 (s :: rest) = (EINVAL_NEG, io3) := by
    intro io3
    rw [v1_send_sections, if_pos h]
  simp only [mt7927_load_patch_v1, mcuSend, hoob]
  simp [List.append_assoc]

/-- C3 witness: file size 100, single section declaring offs 0 and size
200. -/
theorem C3_v1_patch_bounds_checked_witness :
    mt7927_load_patch_v1 100 [⟨0, 200, 2048⟩] ioZero =
      (EINVAL_NEG, { ioZero with
                       count := ioZero.count + 2,
                       trace := ioZero.trace ++ [.semAcquire, .semRelease] }) :=
  C3_v1_patch_bounds_checked 100 ⟨0, 200, 2048⟩ [] ioZero (by decide)

/-! ## Theorems: claim C4 -/

/-- With an all-succeeding device, the chunk-send loop sends every chunk in
order. -/
theorem mcu_send_firmware_ok (cs : List Nat) :
    ∀ io : McuIO, (∀ n, io.oracle n = 0) →
      mcu_send_firmware io cs =
        (0, { io with
                count := io.count + cs.length,
                trace := io.trace ++ cs.map FwEvent.scatter }) := by
  induction cs with
  | nil => intro io h; simp [mcu_send_firmware]
  | cons c cs ih =>
    intro io h
    rw [mcu_send_firmware]
    simp only [mcuSend, h, ne_eq, not_true_eq_false, if_false, ite_false]
    rw [ih { oracle := io.oracle, count := io.count + 1,
             trace := io.trace ++ [FwEvent.scatter c] } h]
    simp only [Prod.mk.injEq, McuIO.mk.injEq, List.map_cons, List.length_cons,
      List.append_assoc, List.singleton_append, true_and]
    exact ⟨by omega, trivial⟩

/-- Whatever the later outcomes, once the semaphore was acquired v2's patch
load ends by sending the semaphore release. -/
theorem v2_load_patch_release_last (dataLen : Nat) (io : McuIO)
    (h : io.oracle io.count = 0) :
    ((mt7927_v2_load_patch dataLen io).2).trace.getLast? =
      some FwEvent.semRelease := by
  have hrel : ∀ (ret : Int) (io2 : McuIO),
      ((v2_sem_release_return ret io2).2).trace.getLast? =
        some FwEvent.semRelease := by
    intro ret io2
    simp [v2_sem_release_return, mcuSend, List.getLast?_concat]
  rw [mt7927_v2_load_patch]
  simp only [mcuSend, h, ne_eq, not_true_eq_false, if_false, ite_false]
  split
  · exact hrel _ _
  · split
    · exact hrel _ _
    · exact hrel _ _

/-- With an all-succeeding device, v2's patch load sends exactly acquire,
declare, the chunks in order, finish, release. -/
theorem v2_load_patch_success (dataLen : Nat) (io : McuIO)
    (h : ∀ n, io.oracle n = 0) :
    mt7927_v2_load_patch dataLen io =
      (0, { io with
              count := io.count + (fwChunks dataLen).length + 4,
              trace := io.trace ++
              (FwEvent.semAcquire ::
                FwEvent.patchStart MT_PATCH_ADDR dataLen ::
                  (fwChunks dataLen).map FwEvent.scatter ++
                [FwEvent.patchFinish, FwEvent.semRelease]) }) := by
  rw [mt7927_v2_load_patch]
  simp only [mcuSend, h, ne_eq, not_true_eq_false, if_false, ite_false]
  rw [mcu_send_firmware_ok (fwChunks dataLen)
    { oracle := io.oracle, count := io.count + 1 + 1,
      trace := io.trace ++ [FwEvent.semAcquire] ++
        [FwEvent.patchStart MT_PATCH_ADDR dataLen] } h]
  simp only [ne_eq, not_true_eq_false, if_false, ite_false]
  simp only [v2_sem_release_return, mcuSend, h, Prod.mk.injEq, McuIO.mk.injEq,
    List.append_assoc, List.singleton_append, List.cons_append, List.nil_append,
    true_and]
  exact ⟨by omega, trivial⟩

/-- C4 (amended): in mt7927_v2.c's `mt7927_load_patch` the five steps occur
in exactly the order semaphore-acquire, declare (PATCH_START_REQ), chunked
transfer, finish, semaphore-release (first conjunct, all-success run), and
on ANY execution whose semaphore acquire succeeded — in particular one
where an intermediate chunk transfer fails with Timeout — the last command
sent before returning is the semaphore release (second conjunct).
mt7927.c's older `mt7927_load_patch` has no finish step at all; see the
counterexample. -/
theorem C4_patch_load_order (dataLen : Nat) (io : McuIO) :
    ((∀ n, io.oracle n = 0) →
      mt7927_v2_load_patch dataLen io =
        (0, { io with
                count := io.count + (fwChunks dataLen).length + 4,
                trace := io.trace ++
                (FwEvent.semAcquire ::
                  FwEvent.patchStart MT_PATCH_ADDR dataLen ::
                    (fwChunks dataLen).map FwEvent.scatter ++
                  [FwEvent.patchFinish, FwEvent.semRelease]) })) ∧
      (io.oracle io.count = 0 →
        ((mt7927_v2_load_patch dataLen io).2).trace.getLast? =
          some FwEvent.semRelease) :=
  ⟨v2_load_patch_success dataLen io, v2_load_patch_release_last dataLen io⟩

/-- A device that accepts the first two commands and then times out on
every later send (so the first firmware chunk reports `-ETIMEDOUT`). -/
def chunkTimeoutIO : McuIO :=
  ⟨fun n => if n < 2 then 0 else ETIMEDOUT_NEG, 0, []⟩

/-- C4 witness: a 10000-byte patch on an all-succeeding device produces
exactly acquire, declare, 3 chunks, finish, release; and on the
chunk-timeout device the release is still the last command sent. -/
theorem C4_patch_load_order_witness :
    mt7927_v2_load_patch 10000 ioZero =
        (0, { ioZero with
                count := ioZero.count + (fwChunks 10000).length + 4,
                trace := ioZero.trace ++
                (FwEvent.semAcquire ::
                  FwEvent.patchStart MT_PATCH_ADDR 10000 ::
                    (fwChunks 10000).map FwEvent.scatter ++
                  [FwEvent.patchFinish, FwEvent.semRelease]) }) ∧
      ((mt7927_v2_load_patch 10000 chunkTimeoutIO).2).trace.getLast? =
        some FwEvent.semRelease :=
  ⟨(C4_patch_load_order 10000 ioZero).1 (fun _ => rfl),
   (C4_patch_load_order 10000 chunkTimeoutIO).2 rfl⟩

/-- C4 counterexample: a successful run of mt7927.c's `mt7927_load_patch`
(one in-bounds 5-byte section, all sends succeeding) sends acquire,
declare, chunk, release — no finish command ever occurs, so the claimed
five-step order acquire, declare, transfer, finish, release does not hold
of this patch load. -/
theorem C4_counterexample :
    (mt7927_load_patch_v1 100 [⟨20, 5, 2048⟩] ioZero).1 = 0 ∧
      ((mt7927_load_patch_v1 100 [⟨20, 5, 2048⟩] ioZero).2).trace =
        [.semAcquire, .initDownload 2048 5, .scatter 5, .semRelease] ∧
      FwEvent.patchFinish ∉
        ((mt7927_load_patch_v1 100 [⟨20, 5, 2048⟩] ioZero).2).trace := by
  refine ⟨by decide, by decide, by decide⟩

/-! ## Theorems: claim C6 -/

/-- The commands `mt7927_load_ram` issues for one region: declare the
target, then the region's chunks. -/
def regionTrace (r : Nat × Nat) : List FwEvent :=
  FwEvent.initDownload r.1 r.2 :: (fwChunks r.2).map FwEvent.scatter

/-- Recognise the start-execution command. -/
def isFwStart : FwEvent → Bool
  | .fwStart _ => true
  | _ => false

/-- getD over an append, right part. -/
theorem getD_append_right (l1 l2 : List Nat) (i : Nat) (h : l1.length ≤ i) :
    (l1 ++ l2).getD i 0 = l2.getD (i - l1.length) 0 := by
  simp [List.getD_eq_getElem?_getD, List.getElem?_append_right h]

/-- getD over an append, left part. -/
theorem getD_append_left (l1 l2 : List Nat) (i : Nat) (h : i < l1.length) :
    (l1 ++ l2).getD i 0 = l1.getD i 0 := by
  simp [List.getD_eq_getElem?_getD, List.getElem?_append_left h]

/-- A serialized region record is 40 bytes. -/
theorem encodeRegionRecord_length (r : Nat × Nat) :
    (encodeRegionRecord r).length = 40 := by
  simp [encodeRegionRecord, encodeLE32]

/-- The serialized record block is 40 bytes per record. -/
theorem flatten_encode_length (rs : List (Nat × Nat)) :
    ((rs.map encodeRegionRecord).flatten).length = 40 * rs.length := by
  induction rs with
  | nil => simp
  | cons r rs ih =>
    simp only [List.map_cons, List.flatten_cons, List.length_append, ih,
      encodeRegionRecord_length, List.length_cons]
    ring

/-- A serialized trailer is 36 bytes. -/
theorem encodeTrailer_length (n : Nat) : (encodeTrailer n).length = 36 := by
  simp [encodeTrailer]

/-- Total size of a built main image. -/
theorem mkMainImage_length (payload : List Nat) (rs : List (Nat × Nat)) :
    (mkMainImage payload rs).length =
      payload.length + 40 * rs.length + 36 := by
  rw [mkMainImage, List.length_append, List.length_append,
    flatten_encode_length, encodeTrailer_length]

/-- The parser's region count is the `n_region` byte stored in the
trailer. -/
theorem fwNRegion_mkMainImage (payload : List Nat) (rs : List (Nat × Nat)) :
    fwNRegion (mkMainImage payload rs) = rs.length := by
  rw [fwNRegion, mkMainImage_length, readByte]
  have hidx : payload.length + 40 * rs.length + 36 - FW_TRAILER_SIZE + 2 =
      payload.length + (40 * rs.length + 2) := by
    simp [FW_TRAILER_SIZE]; omega
  rw [hidx, mkMainImage, List.append_assoc,
    getD_append_right payload _ _ (by omega), Nat.add_sub_cancel_left,
    getD_append_right _ _ _ (by rw [flatten_encode_length]; omega),
    flatten_encode_length]
  have h2 : 40 * rs.length + 2 - 40 * rs.length = 2 := by omega
  rw [h2, encodeTrailer]
  rfl

/-- Byte 40i+j of the serialized record block is byte j of the i-th
serialized record. -/
theorem flatten_record_getD (rs : List (Nat × Nat)) :
    ∀ i j, i < rs.length → j < 40 →
      ((rs.map encodeRegionRecord).flatten).getD (40 * i + j) 0 =
        (encodeRegionRecord (rs.getD i (0, 0))).getD j 0 := by
  induction rs with
  | nil => intro i j hi _; simp at hi
  | cons r rs ih =>
    intro i j hi hj
    match i with
    | 0 =>
      simp only [List.map_cons, List.flatten_cons, Nat.mul_zero, Nat.zero_add]
      rw [getD_append_left _ _ _ (by rw [encodeRegionRecord_length]; omega)]
      simp
    | i+1 =>
      simp only [List.map_cons, List.flatten_cons]
      rw [getD_append_right _ _ _ (by rw [encodeRegionRecord_length]; omega)]
      have h2 : 40 * (i + 1) + j - (encodeRegionRecord r).length =
          40 * i + j := by
        rw [encodeRegionRecord_length]; omega
      have hi2 : i < rs.length := by
        simp only [List.length_cons] at hi
        omega
      rw [h2, ih i j hi2 hj]
      simp

/-- Byte j of record i of a built main image is byte j of the i-th
serialized record. -/
theorem mkMainImage_record_byte (payload : List Nat) (rs : List (Nat × Nat))
    (i j idx : Nat) (hi : i < rs.length) (hj : j < 40)
    (hidx : idx = payload.length + (40 * i + j)) :
    (mkMainImage payload rs).getD idx 0 =
      (encodeRegionRecord (rs.getD i (0, 0))).getD j 0 := by
  subst hidx
  rw [mkMainImage, List.append_assoc,
    getD_append_right payload _ _ (by omega), Nat.add_sub_cancel_left,
    getD_append_left _ _ _ (by rw [flatten_encode_length]; omega)]
  exact flatten_record_getD rs i j hi hj

/-- Byte 16+k of a serialized record is byte k of the little-endian
address. -/
theorem encodeRegionRecord_addr_byte (r : Nat × Nat) (k : Nat) (hk : k < 4) :
    (encodeRegionRecord r).getD (16 + k) 0 = (encodeLE32 r.1).getD k 0 := by
  rw [encodeRegionRecord, List.append_assoc, List.append_assoc,
    getD_append_right _ _ _ (by simp only [List.length_replicate]; omega)]
  have h1 : 16 + k - (List.replicate 16 (0 : Nat)).length = k := by
    simp only [List.length_replicate]; omega
  rw [h1, getD_append_left _ _ _ (by
    simp only [encodeLE32, List.length_cons, List.length_nil]; omega)]

/-- Byte 20+k of a serialized record is byte k of the little-endian
length. -/
theorem encodeRegionRecord_len_byte (r : Nat × Nat) (k : Nat) (hk : k < 4) :
    (encodeRegionRecord r).getD (20 + k) 0 = (encodeLE32 r.2).getD k 0 := by
  rw [encodeRegionRecord, List.append_assoc, List.append_assoc,
    getD_append_right _ _ _ (by simp only [List.length_replicate]; omega)]
  have h1 : 20 + k - (List.replicate 16 (0 : Nat)).length = 4 + k := by
    simp only [List.length_replicate]; omega
  rw [h1, getD_append_right _ _ _ (by
    simp only [encodeLE32, List.length_cons, List.length_nil]; omega)]
  have h2 : 4 + k - (encodeLE32 r.1).length = k := by
    simp only [encodeLE32, List.length_cons, List.length_nil]; omega
  rw [h2, getD_append_left _ _ _ (by
    simp only [encodeLE32, List.length_cons, List.length_nil]; omega)]

/-- Region record i of a built main image parses back to the declared
(address, length) pair. -/
theorem fwRegionRecord_mkMainImage (payload : List Nat)
    (rs : List (Nat × Nat)) (i : Nat) (hi : i < rs.length)
    (ha : (rs.getD i (0, 0)).1 < 2 ^ 32) (hl : (rs.getD i (0, 0)).2 < 2 ^ 32) :
    fwRegionRecord (mkMainImage payload rs) i = rs.getD i (0, 0) := by
  have hbase : (mkMainImage payload rs).length - FW_TRAILER_SIZE -
      (fwNRegion (mkMainImage payload rs) - i) * FW_REGION_SIZE =
      payload.length + 40 * i := by
    rw [mkMainImage_length, fwNRegion_mkMainImage]
    simp only [FW_TRAILER_SIZE, FW_REGION_SIZE]
    have h40 : (rs.length - i) * 40 = 40 * rs.length - 40 * i := by
      rw [Nat.sub_mul]; omega
    omega
  rw [fwRegionRecord, hbase]
  rw [readLE32, readLE32]
  simp only [readByte]
  rw [mkMainImage_record_byte payload rs i 16 _ hi (by omega) (by omega),
    mkMainImage_record_byte payload rs i 17 _ hi (by omega) (by omega),
    mkMainImage_record_byte payload rs i 18 _ hi (by omega) (by omega),
    mkMainImage_record_byte payload rs i 19 _ hi (by omega) (by omega),
    mkMainImage_record_byte payload rs i 20 _ hi (by omega) (by omega),
    mkMainImage_record_byte payload rs i 21 _ hi (by omega) (by omega),
    mkMainImage_record_byte payload rs i 22 _ hi (by omega) (by omega),
    mkMainImage_record_byte payload rs i 23 _ hi (by omega) (by omega)]
  rw [show (16 : Nat) = 16 + 0 from rfl, encodeRegionRecord_addr_byte _ _ (by omega),
    show (17 : Nat) = 16 + 1 from rfl, encodeRegionRecord_addr_byte _ _ (by omega),
    show (18 : Nat) = 16 + 2 from rfl, encodeRegionRecord_addr_byte _ _ (by omega),
    show (19 : Nat) = 16 + 3 from rfl, encodeRegionRecord_addr_byte _ _ (by omega),
    show (20 : Nat) = 20 + 0 from rfl, encodeRegionRecord_len_byte _ _ (by omega),
    show (21 : Nat) = 20 + 1 from rfl, encodeRegionRecord_len_byte _ _ (by omega),
    show (22 : Nat) = 20 + 2 from rfl, encodeRegionRecord_len_byte _ _ (by omega),
    show (23 : Nat) = 20 + 3 from rfl, encodeRegionRecord_len_byte _ _ (by omega)]
  simp only [encodeLE32, List.getD_cons_zero, List.getD_cons_succ]
  have hfst : (rs.getD i (0, 0)).1 % 256 +
      256 * ((rs.getD i (0, 0)).1 / 256 % 256) +
      65536 * ((rs.getD i (0, 0)).1 / 65536 % 256) +
      16777216 * ((rs.getD i (0, 0)).1 / 16777216 % 256) =
      (rs.getD i (0, 0)).1 := by omega
  have hsnd : (rs.getD i (0, 0)).2 % 256 +
      256 * ((rs.getD i (0, 0)).2 / 256 % 256) +
      65536 * ((rs.getD i (0, 0)).2 / 65536 % 256) +
      16777216 * ((rs.getD i (0, 0)).2 / 16777216 % 256) =
      (rs.getD i (0, 0)).2 := by omega
  rw [hfst, hsnd]

/-- The parser recovers exactly the declared region list, in original
order. -/
theorem fwParseRegions_mkMainImage (payload : List Nat)
    (rs : List (Nat × Nat)) (hv : ∀ r ∈ rs, r.1 < 2 ^ 32 ∧ r.2 < 2 ^ 32) :
    fwParseRegions (mkMainImage payload rs) = rs := by
  rw [fwParseRegions, fwNRegion_mkMainImage]
  apply List.ext_getElem
  · simp
  · intro i h1 h2
    simp only [List.getElem_map, List.getElem_range]
    have hi : i < rs.length := h2
    have hmem : rs.getD i (0, 0) ∈ rs := by
      rw [List.getD_eq_getElem rs (0, 0) hi]
      exact List.getElem_mem hi
    rw [fwRegionRecord_mkMainImage payload rs i hi (hv _ hmem).1 (hv _ hmem).2,
      List.getD_eq_getElem rs (0, 0) hi]

/-- With an all-succeeding device the region loop declares and transfers
each region in turn. -/
theorem v2_load_ram_loop_ok (rs : List (Nat × Nat)) :
    ∀ io : McuIO, (∀ n, io.oracle n = 0) →
      v2_load_ram_loop io rs =
        (0, { io with
                count := io.count + ((rs.map regionTrace).flatten).length,
                trace := io.trace ++ (rs.map regionTrace).flatten }) := by
  induction rs with
  | nil => intro io h; simp [v2_load_ram_loop]
  | cons r rs ih =>
    intro io h
    obtain ⟨addr, len⟩ := r
    rw [v2_load_ram_loop]
    simp only [mcuSend, h, ne_eq, not_true_eq_false, if_false, ite_false]
    rw [mcu_send_firmware_ok (fwChunks len)
      { oracle := io.oracle, count := io.count + 1,
        trace := io.trace ++ [FwEvent.initDownload addr len] } h]
    simp only [ne_eq, not_true_eq_false, if_false, ite_false]
    rw [ih { oracle := io.oracle,
             count := io.count + 1 + (fwChunks len).length,
             trace := io.trace ++ [FwEvent.initDownload addr len] ++
               (fwChunks len).map FwEvent.scatter } h]
    simp only [Prod.mk.injEq, McuIO.mk.injEq, true_and, List.map_cons,
      List.flatten_cons, regionTrace, List.length_append, List.length_cons,
      List.length_map, List.append_assoc, List.cons_append,
      List.singleton_append, List.nil_append]
    exact ⟨by omega, trivial⟩

/-- The firmware-ready poll returns 0 when the ready bits are observed at
the first iteration. -/
theorem mt7927_wait_fw_ready_first (misc wfsys : Nat → Nat)
    (hrdy : misc 0 &&& MT_TOP_MISC2_FW_N9_RDY = MT_TOP_MISC2_FW_N9_RDY) :
    mt7927_wait_fw_ready misc wfsys = 0 := by
  rw [mt7927_wait_fw_ready, show FW_READY_TIMEOUT_MS = 2999 + 1 from rfl,
    mt7927_wait_fw_ready_aux, if_pos hrdy]

/-- On a responsive device — every send accepted, the ring-15 CIDX
readback advancing after FW_START, firmware-ready observed at the first
poll — `mt7927_load_ram` transfers every parsed region, sends
start-execution once and returns 0. -/
theorem mt7927_load_ram_ok (blob : List Nat) (cb ca : Nat)
    (misc wfsys : Nat → Nat) (io : McuIO) (h : ∀ n, io.oracle n = 0)
    (hadv : ca ≠ cb)
    (hrdy : misc 0 &&& MT_TOP_MISC2_FW_N9_RDY = MT_TOP_MISC2_FW_N9_RDY) :
    mt7927_load_ram blob cb ca misc wfsys io =
      (0, { io with
              count := io.count +
                (((fwParseRegions blob).map regionTrace).flatten).length + 1,
              trace := io.trace ++
                ((fwParseRegions blob).map regionTrace).flatten ++
                [FwEvent.fwStart 0] }) := by
  rw [mt7927_load_ram, v2_load_ram_loop_ok (fwParseRegions blob) io h]
  simp only [ne_eq, not_true_eq_false, if_false, ite_false,
    mt7927_mcu_start_firmware, mcuSend, h, if_neg hadv,
    mt7927_wait_fw_ready_first misc wfsys hrdy,
    Prod.mk.injEq, McuIO.mk.injEq, true_and, List.append_assoc]

/-- The per-region commands contain no start-execution command. -/
theorem regionTrace_no_fwStart (rs : List (Nat × Nat)) :
    ((rs.map regionTrace).flatten).filter isFwStart = [] := by
  induction rs with
  | nil => rfl
  | cons r rs ih =>
    simp only [List.map_cons, List.flatten_cons, List.filter_append, ih,
      List.append_nil, regionTrace]
    rw [List.filter_cons]
    simp only [show isFwStart (FwEvent.initDownload r.1 r.2) = false from rfl,
      Bool.false_eq_true, if_false, List.filter_map]
    have hcomp : (isFwStart ∘ FwEvent.scatter) = fun _ => false := by
      funext c; rfl
    rw [hcomp, List.filter_false, List.map_nil]

set_option maxRecDepth 4000 in
/-- C6 counterexample: a well-formed two-region main image on a device
that accepts every send and reaches firmware-ready, but whose ring-15
CIDX readback does not advance after FW_START (`cidx_after = cidx_before`,
exactly the condition `mt7927_mcu_start_firmware` tests at mt7927_v2.c
line 1589): the load still returns success, but start-execution is sent
twice — once via ring 15 and once via the ring-16 fallback — so it is not
issued exactly once. -/
theorem C6_counterexample :
    fwParseRegions (mkMainImage [7, 7, 7, 7, 7] [(4096, 2), (8192, 3)]) =
        [(4096, 2), (8192, 3)] ∧
      (mt7927_load_ram (mkMainImage [7, 7, 7, 7, 7] [(4096, 2), (8192, 3)])
          0 0 (fun _ => 3) (fun _ => 0) ioZero).1 = 0 ∧
      ((mt7927_load_ram (mkMainImage [7, 7, 7, 7, 7] [(4096, 2), (8192, 3)])
          0 0 (fun _ => 3) (fun _ => 0) ioZero).2).trace =
        [.initDownload 4096 2, .scatter 2, .initDownload 8192 3, .scatter 3,
          .fwStart 0, .fwStart 0] ∧
      ((((mt7927_load_ram (mkMainImage [7, 7, 7, 7, 7] [(4096, 2), (8192, 3)])
          0 0 (fun _ => 3) (fun _ => 0) ioZero).2).trace).filter
          isFwStart).length = 2 := by
  refine ⟨by decide, by decide, by decide, by decide⟩

/-- C6 (amended): for a main image whose trailer declares the given region
records (each with 32-bit address and length fields, at most 255 records),
the parser yields exactly those (address, length) pairs, in original
order, reading the records back from just before the trailer; the loader
declares and transfers each region in turn and then issues
start-execution — exactly once, after all regions, provided the ring-15
CIDX readback advances after the FW_START send (when it does not, the
fallback sends FW_START a second time through the firmware-download ring;
see the counterexample) — and the load returns the result of the
firmware-ready poll. -/
theorem C6_region_parse_and_load (payload : List Nat) (rs : List (Nat × Nat))
    (cb ca : Nat) (misc wfsys : Nat → Nat) (io : McuIO)
    (_hn : rs.length < 256)
    (hv : ∀ r ∈ rs, r.1 < 2 ^ 32 ∧ r.2 < 2 ^ 32)
    (hok : ∀ n, io.oracle n = 0) (htr : io.trace = []) (hadv : ca ≠ cb)
    (hrdy : misc 0 &&& MT_TOP_MISC2_FW_N9_RDY = MT_TOP_MISC2_FW_N9_RDY) :
    fwParseRegions (mkMainImage payload rs) = rs ∧
      (mt7927_load_ram (mkMainImage payload rs) cb ca misc wfsys io).1 = 0 ∧
      ((mt7927_load_ram (mkMainImage payload rs) cb ca misc wfsys io).2).trace =
        (rs.map regionTrace).flatten ++ [FwEvent.fwStart 0] ∧
      (((mt7927_load_ram (mkMainImage payload rs) cb ca misc wfsys
          io).2).trace).filter isFwStart = [FwEvent.fwStart 0] := by
  have hparse := fwParseRegions_mkMainImage payload rs hv
  have hload :=
    mt7927_load_ram_ok (mkMainImage payload rs) cb ca misc wfsys io hok hadv hrdy
  refine ⟨hparse, ?_, ?_, ?_⟩
  · rw [hload]
  · rw [hload]
    simp [hparse, htr]
  · rw [hload]
    simp only [hparse, htr, List.nil_append, List.filter_append,
      regionTrace_no_fwStart, List.append_assoc]
    rw [List.filter_cons]
    simp [isFwStart]

/-- C6 witness: payload of 5 bytes, two regions (address 4096, length 2)
and (address 8192, length 3), fresh all-succeeding device whose ring-15
CIDX readback advances 0 to 1 and whose MISC register shows the ready bits
at the first poll. -/
theorem C6_region_parse_and_load_witness :
    fwParseRegions (mkMainImage [9, 9, 9, 9, 9] [(4096, 2), (8192, 3)]) =
        [(4096, 2), (8192, 3)] ∧
      (mt7927_load_ram (mkMainImage [9, 9, 9, 9, 9] [(4096, 2), (8192, 3)])
          0 1 (fun _ => 3) (fun _ => 0) ioZero).1 = 0 ∧
      ((mt7927_load_ram (mkMainImage [9, 9, 9, 9, 9] [(4096, 2), (8192, 3)])
          0 1 (fun _ => 3) (fun _ => 0) ioZero).2).trace =
        ([(4096, 2), (8192, 3)].map regionTrace).flatten ++
          [FwEvent.fwStart 0] ∧
      (((mt7927_load_ram (mkMainImage [9, 9, 9, 9, 9] [(4096, 2), (8192, 3)])
          0 1 (fun _ => 3) (fun _ => 0) ioZero).2).trace).filter isFwStart =
        [FwEvent.fwStart 0] :=
  C6_region_parse_and_load [9, 9, 9, 9, 9] [(4096, 2), (8192, 3)] 0 1
    (fun _ => 3) (fun _ => 0) ioZero (by decide) (by decide) (fun _ => rfl)
    rfl (by decide) (by decide)

end MT7927
